import Mathlib

/-!
# baselib/net2/tcp_server.go

A shallow embedding of the TCP server controller of package net2: the
acceptor loop with its backoff (Accept), the server controller (Serve, Stop,
Pause) and the per-connection receive loop (establishTcpConnection with
onNewConnection and onConnectionClosed).

External collaborators (the listener, the connection's Receive, the codec
factory, the application callback) are parameters: a listener is the list of
results its Accept method will produce, a connection's inbound side is the
list of results its Receive method will produce, the callback is a state
machine over an arbitrary state type.  Every call that leaves this file is
recorded, in program order, in a trace of actions.
-/

namespace Net2

/-! ## Values -/

/-- Go error value, reduced to the two observations this file makes of it:
the text of Error() and whether it is a net.Error whose Temporary() is true. -/
structure GoError where
  text : String
  netTemporary : Bool
deriving DecidableEq, Repr

/-- The sentinel io.EOF. -/
def io_EOF : GoError := ⟨"EOF", false⟩

/-- Raw socket handed out by the listener (a net.Conn): an identity and
whether its dynamic type is *net.TCPConn. -/
structure NetConn where
  id : Nat
  isTCP : Bool
deriving DecidableEq, Repr

/-- Codec produced by the codec factory (not interpreted by this file). -/
abbrev Codec := Nat

/-- Decoded message (not interpreted by this file); a nil message is Option.none. -/
abbrev Msg := Nat

/-- The connection object built by NewServerTcpConnection(conn, sendChanSize,
codec, s); the back reference to the server is the world it runs in. -/
structure TcpConnection where
  conn : NetConn
  sendChanSize : Int
  codec : Codec
deriving DecidableEq, Repr

/-- Calls that leave this file, in program order. -/
inductive Action where
  | listenerAccept
  | sleep (d : Int)
  | glogError (text : String)
  | newCodecByName (protoName : String) (conn : NetConn)
  | connClose (conn : NetConn)
  | goEstablish (c : TcpConnection)
  | listenerClose
  | managerDispose
  | putConnection (c : TcpConnection)
  | delConnection (c : TcpConnection)
  | receive (c : TcpConnection)
  | OnNewConnection (c : TcpConnection)
  | OnDataArrived (c : TcpConnection) (msg : Msg)
  | OnConnectionClosed (c : TcpConnection)
deriving DecidableEq, Repr

/-- How a call ends: it returns, it never returns because it waits on an
external collaborator that has nothing more to deliver, it leaves by a
runtime fault (a Go panic carrying a value), or the model ran out of fuel. -/
inductive Completion where
  | returned
  | blocked
  | panicked (v : String)
  | outOfFuel
deriving DecidableEq, Repr

/-! ## time.Duration -/

/-- Two's complement wrap of a mathematical integer to int64. -/
def wrapInt64 (x : Int) : Int := (x + 2 ^ 63) % 2 ^ 64 - 2 ^ 63

/-- Nanoseconds in time.Millisecond. -/
def Millisecond : Int := 1000000

/-- Nanoseconds in time.Second. -/
def Second : Int := 1000000000

/-! ## strings.Contains -/

/-- Whether the character list sub occurs as a contiguous block of the list. -/
def containsChars (sub : List Char) : List Char → Bool
  | [] => sub.isEmpty
  | c :: cs => sub.isPrefixOf (c :: cs) || containsChars sub cs

/-- Go strings.Contains(s, substr). -/
def strings_Contains (s substr : String) : Bool := containsChars substr.data s.data

/-! ## Accept -/

/-- One result of listener.Accept(): a socket or an error. -/
inductive AcceptResult where
  | conn (c : NetConn)
  | error (e : GoError)
deriving DecidableEq, Repr

/-- The listener: the results its Accept method will produce, in order, and
whether Close has been called on it. -/
structure Listener where
  pending : List AcceptResult
  closed : Bool
deriving DecidableEq, Repr

/-- What a call of Accept leaves behind: the pair it returned (none when the
call never returns: the listener delivers nothing more), the calls it made,
and the results the listener has not yet delivered.  The Go pair (conn, nil)
is AcceptResult.conn, the pair (nil, err) is AcceptResult.error. -/
structure AcceptReturn where
  result : Option AcceptResult
  trace : List Action
  rest : List AcceptResult
deriving DecidableEq, Repr

/-- The delay of the next sleep, from the current value of tempDelay
(lines 86 to 93): 5ms when it is zero, else twice the value in int64
arithmetic, then capped at one second. -/
def nextDelay (tempDelay : Int) : Int :=
  let d := if tempDelay = 0 then 5 * Millisecond else wrapInt64 (tempDelay * 2)
  if d > 1 * Second then 1 * Second else d

/-- The for loop of Accept, with the local tempDelay as an argument. -/
def AcceptLoop (tempDelay : Int) : List AcceptResult → AcceptReturn
  | [] => ⟨none, [.listenerAccept], []⟩
  | .conn c :: rest => ⟨some (.conn c), [.listenerAccept], rest⟩
  | .error e :: rest =>
    if e.netTemporary then
      let r := AcceptLoop (nextDelay tempDelay) rest
      { r with trace := .listenerAccept :: .sleep (nextDelay tempDelay) :: r.trace }
    else if strings_Contains e.text "use of closed network connection" then
      ⟨some (.error io_EOF), [.listenerAccept], rest⟩
    else
      ⟨some (.error e), [.listenerAccept], rest⟩

/-- Go func Accept(listener net.Listener) (net.Conn, error): tempDelay starts
at its zero value. -/
def Accept (listener : Listener) : AcceptReturn := AcceptLoop 0 listener.pending

/-- The delays passed to time.Sleep, in order. -/
def sleeps : List Action → List Int
  | [] => []
  | .sleep d :: t => d :: sleeps t
  | _ :: t => sleeps t

/-- How many leading results of the listener are transient errors. -/
def transientRun : List AcceptResult → Nat
  | .error e :: rest => if e.netTemporary then transientRun rest + 1 else 0
  | _ => 0

/-! ## The connection registry -/

/-- Modelled from the spec: the Connection Registry (type ConnectionManager,
declared outside this file), "a mapping from connection identity to
Connection, mutated by put (on new connection) and del (on connection
closed), and by disposeAll (on server stop, closes every registered
connection and clears the mapping)".  The mapping is the list of the
registered connections. -/
structure ConnectionManager where
  connections : List TcpConnection
deriving DecidableEq, Repr

/-- Modelled from the spec: NewConnectionManager, the empty registry. -/
def NewConnectionManager : ConnectionManager := ⟨[]⟩

/-- Modelled from the spec: putConnection adds the connection to the mapping
(replacing an entry of the same identity). -/
def ConnectionManager.putConnection (m : ConnectionManager) (c : TcpConnection) :
    ConnectionManager :=
  ⟨c :: m.connections.filter (fun x => x ≠ c)⟩

/-- Modelled from the spec: delConnection removes the connection from the
mapping. -/
def ConnectionManager.delConnection (m : ConnectionManager) (c : TcpConnection) :
    ConnectionManager :=
  ⟨m.connections.filter (fun x => x ≠ c)⟩

/-- Modelled from the spec: Dispose closes every registered connection
(closing each underlying socket) and clears the mapping; the result is the
cleared registry and the sockets it closed. -/
def ConnectionManager.Dispose (m : ConnectionManager) : ConnectionManager × List NetConn :=
  (⟨[]⟩, m.connections.map (fun c => c.conn))

/-! ## The callback -/

/-- How a call into the application ends: with a value, or with a runtime
fault carrying a value. -/
inductive Outcome (α : Type) where
  | returns (a : α)
  | panics (v : String)

/-- The interface TcpConnectionCallback (declared outside this file), as a
state machine over the application state: each method takes the state and
gives the next state and how the call ended.  OnDataArrived returns a Go
error, nil being Option.none. -/
structure TcpConnectionCallback (σ : Type) where
  OnNewConnection : σ → TcpConnection → σ × Outcome Unit
  OnDataArrived : σ → TcpConnection → Msg → σ × Outcome (Option GoError)
  OnConnectionClosed : σ → TcpConnection → σ × Outcome Unit

/-! ## The server -/

/-- Go type TcpServer struct.  The pointer connectionManager and the interface
callback may be nil (Option.none). -/
structure TcpServer (σ : Type) where
  connectionManager : Option ConnectionManager
  listener : Listener
  serverName : String
  protoName : String
  sendChanSize : Int
  callback : Option (TcpConnectionCallback σ)
  running : Bool

/-- Go func NewTcpServer. -/
def NewTcpServer {σ : Type} (listener : Listener) (serverName protoName : String)
    (sendChanSize : Int) (cb : Option (TcpConnectionCallback σ)) : TcpServer σ :=
  { connectionManager := some NewConnectionManager
    listener := listener
    serverName := serverName
    protoName := protoName
    sendChanSize := sendChanSize
    callback := cb
    running := false }

/-- Everything the methods of the server read and write: the server itself,
the state of the application behind the callback, the sockets that have been
closed, and the trace of the calls made so far. -/
structure World (σ : Type) where
  server : TcpServer σ
  cbState : σ
  closedSockets : List NetConn
  trace : List Action

/-- Append one action to the trace. -/
def World.emit {σ : Type} (w : World σ) (a : Action) : World σ :=
  { w with trace := w.trace ++ [a] }

/-- The connections in the registry of the server (none when the server has
no registry). -/
def World.registry {σ : Type} (w : World σ) : List TcpConnection :=
  match w.server.connectionManager with
  | some m => m.connections
  | none => []

/-- Go func (s *TcpServer) Serve(), lines 59 to 75: the for loop.  The fuel
bounds the number of iterations; Serve gives it more than the loop can use.
Every exit of the loop is a return statement. -/
def ServeLoop {σ : Type} (NewCodecByName : String → NetConn → Except GoError Codec) :
    Nat → World σ → World σ × Completion
  | 0, w => (w, .outOfFuel)
  | fuel + 1, w =>
    let a := Accept w.server.listener
    let w1 : World σ :=
      { w with
        server := { w.server with listener := { w.server.listener with pending := a.rest } }
        trace := w.trace ++ a.trace }
    match a.result with
    | none => (w1, .blocked)
    | some (.error err) => (w1.emit (.glogError err.text), .returned)
    | some (.conn conn) =>
      let w2 := w1.emit (.newCodecByName w1.server.protoName conn)
      match NewCodecByName w1.server.protoName conn with
      | .error _ =>
        ({ w2 with closedSockets := w2.closedSockets ++ [conn] }.emit (.connClose conn),
          .returned)
      | .ok codec =>
        if conn.isTCP then
          ServeLoop NewCodecByName fuel
            (w2.emit (.goEstablish ⟨conn, w2.server.sendChanSize, codec⟩))
        else
          (w2, .panicked "interface conversion: net.Conn is not *net.TCPConn")

/-- Go func (s *TcpServer) Serve().  The assignment s.running = false that
follows the for loop in the source is never reached: the loop has no break
and leaves only by return. -/
def Serve {σ : Type} (NewCodecByName : String → NetConn → Except GoError Codec)
    (w : World σ) : World σ × Completion :=
  if w.server.running then
    (w, .returned)
  else
    ServeLoop NewCodecByName (w.server.listener.pending.length + 1)
      { w with server := { w.server with running := true } }

/-- Go func (s *TcpServer) Stop().  Dispose is called on the registry the
server holds; a nil registry holds no connection. -/
def Stop {σ : Type} (w : World σ) : World σ :=
  if w.server.running then
    let w1 : World σ :=
      { w with
        server := { w.server with listener := { w.server.listener with closed := true } }
        trace := w.trace ++ [.listenerClose] }
    match w1.server.connectionManager with
    | some m =>
      { w1 with
        server := { w1.server with connectionManager := some m.Dispose.1 }
        closedSockets := w1.closedSockets ++ m.Dispose.2
        trace := w1.trace ++ [.managerDispose] }
    | none => w1.emit .managerDispose
  else
    w

/-- Go func (s *TcpServer) Pause(): empty body. -/
def Pause {σ : Type} (w : World σ) : World σ := w

/-- Go func (s *TcpServer) onNewConnection(conn). -/
def onNewConnection {σ : Type} (w : World σ) (conn : TcpConnection) : World σ × Completion :=
  let w1 : World σ :=
    match w.server.connectionManager with
    | some m =>
      { w with
        server := { w.server with connectionManager := some (m.putConnection conn) }
        trace := w.trace ++ [.putConnection conn] }
    | none => w
  match w1.server.callback with
  | some cb =>
    let w2 : World σ :=
      { w1 with
        cbState := (cb.OnNewConnection w1.cbState conn).1
        trace := w1.trace ++ [.OnNewConnection conn] }
    match (cb.OnNewConnection w1.cbState conn).2 with
    | .returns _ => (w2, .returned)
    | .panics v => (w2, .panicked v)
  | none => (w1, .returned)

/-- Go func (s *TcpServer) onConnectionClosed(conn). -/
def onConnectionClosed {σ : Type} (w : World σ) (conn : TcpConnection) : World σ × Completion :=
  let w1 : World σ :=
    match w.server.connectionManager with
    | some m =>
      { w with
        server := { w.server with connectionManager := some (m.delConnection conn) }
        trace := w.trace ++ [.delConnection conn] }
    | none => w
  match w1.server.callback with
  | some cb =>
    let w2 : World σ :=
      { w1 with
        cbState := (cb.OnConnectionClosed w1.cbState conn).1
        trace := w1.trace ++ [.OnConnectionClosed conn] }
    match (cb.OnConnectionClosed w1.cbState conn).2 with
    | .returns _ => (w2, .returned)
    | .panics v => (w2, .panicked v)
  | none => (w1, .returned)

/-- Go func (s *TcpServer) OnConnectionClosed(conn Connection): the public
entry through which a connection reports that it has been closed.  The
argument is taken at its dynamic type *TcpConnection. -/
def OnConnectionClosed {σ : Type} (w : World σ) (conn : TcpConnection) : World σ × Completion :=
  onConnectionClosed w conn

/-- One result of conn.Receive(): the pair (msg, err) it returns, or a
runtime fault raised inside it. -/
inductive ReceiveResult where
  | returns (msg : Option Msg) (err : Option GoError)
  | panics (v : String)
deriving DecidableEq, Repr

/-- Lines 131 to 149 of establishTcpConnection: the for loop, run against the
results conn.Receive() will produce, in order.  When they are used up the
loop waits in Receive for ever. -/
def receiveLoop {σ : Type} (conn : TcpConnection) :
    List ReceiveResult → World σ → World σ × Completion
  | [], w => (w.emit (.receive conn), .blocked)
  | .panics v :: _, w => (w.emit (.receive conn), .panicked v)
  | .returns _ (some _) :: _, w => (w.emit (.receive conn), .returned)
  | .returns none none :: _, w =>
    ((w.emit (.receive conn)).emit (.glogError "recv a nil msg"), .returned)
  | .returns (some msg) none :: rest, w =>
    let w1 := w.emit (.receive conn)
    match w1.server.callback with
    | some cb =>
      let w2 : World σ :=
        { w1 with
          cbState := (cb.OnDataArrived w1.cbState conn msg).1
          trace := w1.trace ++ [.OnDataArrived conn msg] }
      match (cb.OnDataArrived w1.cbState conn msg).2 with
      | .returns _ => receiveLoop conn rest w2
      | .panics v => (w2, .panicked v)
    | none => receiveLoop conn rest w1

/-- The body of establishTcpConnection below the defer statement. -/
def establishTcpConnectionBody {σ : Type} (w : World σ) (conn : TcpConnection)
    (received : List ReceiveResult) : World σ × Completion :=
  match onNewConnection w conn with
  | (w1, .returned) => receiveLoop conn received w1
  | r => r

/-- Go func (s *TcpServer) establishTcpConnection(conn): the body, then the
deferred function, whose recover() turns a fault of the body into a log line
and a normal return. -/
def establishTcpConnection {σ : Type} (w : World σ) (conn : TcpConnection)
    (received : List ReceiveResult) : World σ × Completion :=
  match establishTcpConnectionBody w conn received with
  | (w1, .panicked v) => (w1.emit (.glogError ("tcp_server handle panic: " ++ v)), .returned)
  | r => r

/-! ## Views of the trace -/

/-- Whether an action is a call of one of the three callback methods. -/
def Action.isCallback : Action → Bool
  | .OnNewConnection _ => true
  | .OnDataArrived _ _ => true
  | .OnConnectionClosed _ => true
  | _ => false

/-- The callback events of a trace, in order. -/
def callbackEvents (t : List Action) : List Action := t.filter Action.isCallback

/-! ## Definitions used to state the properties -/

/-- The delay min(5ms * 2^k, 1s) in nanoseconds, as a mathematical integer. -/
def backoffDelay (k : Nat) : Int := min (5 * Millisecond * 2 ^ k) (1 * Second)

/-- The value of tempDelay after k consecutive transient failures. -/
def tempDelayAfter : Nat → Int
  | 0 => 0
  | k + 1 => backoffDelay k

/-- Whether every result of the list is a transient error. -/
def allTransient : List AcceptResult → Bool
  | [] => true
  | .error e :: rest => e.netTemporary && allTransient rest
  | .conn _ :: _ => false

/-- The messages that precede the first read or decode error or nil message
(or fault of Receive) in a sequence of Receive results. -/
def messagesBeforeEnd : List ReceiveResult → List Msg
  | .returns (some m) none :: rest => m :: messagesBeforeEnd rest
  | _ => []

/-- Whether every result is a valid message: a message that is not nil, with
a nil error. -/
def allValid : List ReceiveResult → Bool
  | [] => true
  | .returns (some _) none :: rest => allValid rest
  | _ => false

/-- Whether a sequence of callback events has the shape one OnNewConnection,
then OnDataArrived events, then one OnConnectionClosed, all for the
connection c: the helper recognises the part after OnNewConnection. -/
def lifecycleTail (c : TcpConnection) : List Action → Bool
  | [.OnConnectionClosed c1] => c1 = c
  | .OnDataArrived c1 _ :: rest => c1 = c && lifecycleTail c rest
  | _ => false

/-- Whether a sequence of callback events is one OnNewConnection, then zero
or more OnDataArrived, then exactly one OnConnectionClosed, for c. -/
def isLifecycle (c : TcpConnection) : List Action → Bool
  | .OnNewConnection c1 :: rest => c1 = c && lifecycleTail c rest
  | _ => false

/-! ## Sample inputs -/

/-- A callback that counts the calls made to it and never fails. -/
def countingCallback : TcpConnectionCallback Nat :=
  { OnNewConnection := fun n _ => (n + 1, .returns ())
    OnDataArrived := fun n _ _ => (n + 1, .returns none)
    OnConnectionClosed := fun n _ => (n + 1, .returns ()) }

/-- A callback whose OnDataArrived reports failure for every message. -/
def failingCallback : TcpConnectionCallback Nat :=
  { OnNewConnection := fun n _ => (n, .returns ())
    OnDataArrived := fun n _ _ => (n, .returns (some ⟨"rejected", false⟩))
    OnConnectionClosed := fun n _ => (n, .returns ()) }

/-- A codec factory that knows the protocol "mtproto" only. -/
def sampleCodecs (protoName : String) (_conn : NetConn) : Except GoError Codec :=
  if protoName = "mtproto" then .ok 1 else .error ⟨"unknown protocol", false⟩

/-- A world around a server made by NewTcpServer, with the running flag set
as given. -/
def sampleWorld (pending : List AcceptResult) (protoName : String) (running : Bool) :
    World Nat :=
  { server := { NewTcpServer ⟨pending, false⟩ "frontend" protoName 1024
                  (some countingCallback) with running := running }
    cbState := 0
    closedSockets := []
    trace := [] }

/-- A connection over socket 7. -/
def sampleConn : TcpConnection := ⟨⟨7, true⟩, 1024, 1⟩

/-- A running server with one registered connection: the sample world after
onNewConnection. -/
def registeredWorld : World Nat :=
  (onNewConnection (sampleWorld [] "mtproto" true) sampleConn).1

/-- A server that is not running, with one registered connection. -/
def idleWorld : World Nat :=
  (onNewConnection (sampleWorld [] "mtproto" false) sampleConn).1

/-! ## Accept: backoff -/

theorem wrapInt64_of_bounds (x : Int) (h1 : -(2 ^ 63) ≤ x) (h2 : x < 2 ^ 63) :
    wrapInt64 x = x := by
  unfold wrapInt64
  omega

theorem backoffDelay_pos (k : Nat) : 0 < backoffDelay k := by
  unfold backoffDelay Millisecond Second
  have : (0 : Int) < 2 ^ k := by positivity
  apply lt_min <;> omega

theorem backoffDelay_le (k : Nat) : backoffDelay k ≤ 1000000000 := by
  unfold backoffDelay Second
  exact (min_le_right _ _).trans (by norm_num)

theorem nextDelay_tempDelayAfter (k : Nat) : nextDelay (tempDelayAfter k) = backoffDelay k := by
  cases k with
  | zero => decide
  | succ j =>
    have hpos := backoffDelay_pos j
    have hle := backoffDelay_le j
    have hw : wrapInt64 (backoffDelay j * 2) = backoffDelay j * 2 :=
      wrapInt64_of_bounds _ (by omega) (by omega)
    have hne : backoffDelay j ≠ 0 := by omega
    simp only [nextDelay, tempDelayAfter, hne, if_false, hw]
    unfold backoffDelay Millisecond Second at *
    have h2 : (2 : Int) ^ (j + 1) = 2 ^ j * 2 := by ring
    rw [h2]
    have : (0 : Int) < 2 ^ j := by positivity
    generalize (2 : Int) ^ j = p at *
    split <;> omega

theorem sleeps_AcceptLoop (l : List AcceptResult) (k i : Nat) (hi : i < transientRun l) :
    (sleeps (AcceptLoop (tempDelayAfter k) l).trace)[i]? = some (backoffDelay (k + i)) := by
  induction l generalizing k i with
  | nil => simp [transientRun] at hi
  | cons r rest ih =>
    cases r with
    | conn c => simp [transientRun] at hi
    | error e =>
      by_cases ht : e.netTemporary = true
      · simp only [transientRun, ht, if_true] at hi
        simp only [AcceptLoop, ht, if_true, sleeps, nextDelay_tempDelayAfter]
        cases i with
        | zero => simp
        | succ j =>
          have := ih (k + 1) j (by omega)
          simp only [tempDelayAfter] at this
          simp only [List.getElem?_cons_succ, this]
          congr 2
          omega
      · simp [transientRun, ht] at hi

theorem length_sleeps_AcceptLoop (l : List AcceptResult) (d : Int) :
    (sleeps (AcceptLoop d l).trace).length = transientRun l := by
  induction l generalizing d with
  | nil => rfl
  | cons r rest ih =>
    cases r with
    | conn c => rfl
    | error e =>
      by_cases ht : e.netTemporary = true
      · simp [AcceptLoop, ht, sleeps, transientRun, ih]
      · by_cases hc : strings_Contains e.text "use of closed network connection" = true <;>
          simp [AcceptLoop, ht, hc, sleeps, transientRun]

/-- C2: within any call of Accept, the delay slept after the n-th consecutive
transient failure (n at least 1, at most the number of transient failures
the call meets) is min(5ms * 2^(n-1), 1s) in exact integer nanoseconds: the
int64 doubling never wraps.  Every call starts from tempDelay zero, so its
first delay is 5ms whatever happened before; the call sleeps once per
transient failure. -/
theorem Accept_backoff (l : Listener) (n : Nat) (h1 : 1 ≤ n)
    (hn : n ≤ transientRun l.pending) :
    (sleeps (Accept l).trace)[n - 1]? = some (min (5 * Millisecond * 2 ^ (n - 1)) (1 * Second))
      ∧ (sleeps (Accept l).trace).length = transientRun l.pending := by
  refine ⟨?_, length_sleeps_AcceptLoop _ _⟩
  have := sleeps_AcceptLoop l.pending 0 (n - 1) (by omega)
  simpa [Accept, tempDelayAfter, backoffDelay] using this

theorem Accept_backoff_witness :
    (sleeps (Accept ⟨List.replicate 70 (.error ⟨"accept: too many open files", true⟩), false⟩).trace)[70 - 1]?
        = some (min (5 * Millisecond * 2 ^ (70 - 1)) (1 * Second))
      ∧ (sleeps (Accept ⟨List.replicate 70 (.error ⟨"accept: too many open files", true⟩), false⟩).trace).length
        = transientRun (Listener.mk (List.replicate 70 (.error ⟨"accept: too many open files", true⟩)) false).pending :=
  Accept_backoff ⟨List.replicate 70 (.error ⟨"accept: too many open files", true⟩), false⟩ 70
    (by decide) (by decide)

/-! ## Accept: the closed listener -/

theorem AcceptLoop_after_transients (pre rest : List AcceptResult) (r : AcceptResult) (d : Int)
    (hpre : allTransient pre = true) :
    ∃ d1, (AcceptLoop d (pre ++ r :: rest)).result = (AcceptLoop d1 (r :: rest)).result
      ∧ (AcceptLoop d (pre ++ r :: rest)).rest = (AcceptLoop d1 (r :: rest)).rest := by
  induction pre generalizing d with
  | nil => exact ⟨d, rfl, rfl⟩
  | cons a pre ih =>
    cases a with
    | conn c => simp [allTransient] at hpre
    | error e =>
      simp only [allTransient, Bool.and_eq_true] at hpre
      obtain ⟨d1, h1, h2⟩ := ih (nextDelay d) hpre.2
      exact ⟨d1, by simp [AcceptLoop, hpre.1, h1], by simp [AcceptLoop, hpre.1, h2]⟩

/-- C3, counterexample: an error whose text contains "use of closed network
connection" and which is a net.Error reporting Temporary() is retried: here
Accept sleeps 5ms, calls the listener again and returns the next socket with
a nil error, not io.EOF. -/
theorem Accept_closed_text_transient_retried :
    strings_Contains "accept tcp: use of closed network connection"
        "use of closed network connection" = true
      ∧ Accept ⟨[.error ⟨"accept tcp: use of closed network connection", true⟩,
                 .conn ⟨7, true⟩], false⟩
        = ⟨some (.conn ⟨7, true⟩), [.listenerAccept, .sleep 5000000, .listenerAccept], []⟩
      ∧ (Accept ⟨[.error ⟨"accept tcp: use of closed network connection", true⟩,
                 .conn ⟨7, true⟩], false⟩).result ≠ some (.error io_EOF) := by
  decide

/-- C3, amended: when listener.Accept returns, after any number of transient
errors, an error that is not a temporary net.Error and whose text contains
"use of closed network connection", Accept returns no connection and io.EOF,
not the original error, and calls the listener no further. -/
theorem Accept_listener_closed (pre rest : List AcceptResult) (e : GoError) (closed : Bool)
    (hpre : allTransient pre = true)
    (hnt : e.netTemporary = false)
    (htxt : strings_Contains e.text "use of closed network connection" = true) :
    (Accept ⟨pre ++ .error e :: rest, closed⟩).result = some (.error io_EOF)
      ∧ (Accept ⟨pre ++ .error e :: rest, closed⟩).rest = rest := by
  obtain ⟨d1, h1, h2⟩ := AcceptLoop_after_transients pre rest (.error e) 0 hpre
  simp only [Accept, h1, h2]
  simp [AcceptLoop, hnt, htxt]

theorem Accept_listener_closed_witness :
    (Accept ⟨[.error ⟨"accept: too many open files", true⟩]
        ++ .error ⟨"accept tcp [::]:8080: use of closed network connection", false⟩
        :: [.conn ⟨7, true⟩], false⟩).result = some (.error io_EOF)
      ∧ (Accept ⟨[.error ⟨"accept: too many open files", true⟩]
        ++ .error ⟨"accept tcp [::]:8080: use of closed network connection", false⟩
        :: [.conn ⟨7, true⟩], false⟩).rest = [.conn ⟨7, true⟩] :=
  Accept_listener_closed [.error ⟨"accept: too many open files", true⟩] [.conn ⟨7, true⟩]
    ⟨"accept tcp [::]:8080: use of closed network connection", false⟩ false
    (by decide) (by decide) (by decide)

/-! ## Serve -/

theorem AcceptLoop_rest_length (l : List AcceptResult) (d : Int) :
    (AcceptLoop d l).rest.length ≤ l.length
      ∧ ((AcceptLoop d l).result ≠ none → (AcceptLoop d l).rest.length < l.length) := by
  induction l generalizing d with
  | nil => simp [AcceptLoop]
  | cons r rest ih =>
    cases r with
    | conn c => simp [AcceptLoop]
    | error e =>
      by_cases ht : e.netTemporary = true
      · obtain ⟨h1, h2⟩ := ih (nextDelay d)
        simp only [AcceptLoop, ht, if_true, List.length_cons]
        exact ⟨by omega, fun h => by have := h2 h; omega⟩
      · by_cases hc : strings_Contains e.text "use of closed network connection" = true <;>
          simp [AcceptLoop, ht, hc]

theorem ServeLoop_fuel {σ : Type} (nc : String → NetConn → Except GoError Codec)
    (fuel : Nat) (w : World σ) (h : w.server.listener.pending.length < fuel) :
    (ServeLoop nc fuel w).2 ≠ .outOfFuel := by
  induction fuel generalizing w with
  | zero => omega
  | succ n ih =>
    have hlen := AcceptLoop_rest_length w.server.listener.pending 0
    unfold ServeLoop
    simp only [Accept] at *
    split
    · simp
    · simp
    · rename_i conn hres
      split
      · simp
      · split
        · apply ih
          have := hlen.2 (by rw [hres]; simp)
          simp only [World.emit]
          omega
        · simp

/-- Serve gives its loop enough fuel: the outcome is never that of exhausted
fuel. -/
theorem Serve_fuel {σ : Type} (nc : String → NetConn → Except GoError Codec) (w : World σ) :
    (Serve nc w).2 ≠ .outOfFuel := by
  unfold Serve
  split
  · simp
  · exact ServeLoop_fuel nc _ _ (by simp)

theorem ServeLoop_running {σ : Type} (nc : String → NetConn → Except GoError Codec)
    (fuel : Nat) (w : World σ) :
    (ServeLoop nc fuel w).1.server.running = w.server.running := by
  induction fuel generalizing w with
  | zero => rfl
  | succ n ih =>
    unfold ServeLoop
    simp only
    split
    · rfl
    · rfl
    · split
      · rfl
      · split
        · rw [ih]; rfl
        · rfl

/-- C6: in the loop of Serve, when Accept has returned a socket and the codec
factory fails for it, the iteration closes that socket and returns: the world
afterwards differs from the world before only by what Accept consumed from
the listener, by the socket being closed, and by a trace that grew by the
calls of Accept, the call of the factory and conn.Close().  So the registry
is untouched, no receive loop is launched, and the listener is not called
again. -/
theorem ServeLoop_codec_failure {σ : Type} (nc : String → NetConn → Except GoError Codec)
    (fuel : Nat) (w : World σ) (conn : NetConn) (e : GoError)
    (hacc : (Accept w.server.listener).result = some (.conn conn))
    (hcodec : nc w.server.protoName conn = .error e) :
    ServeLoop nc (fuel + 1) w =
      ({ w with
          server := { w.server with
            listener := { w.server.listener with pending := (Accept w.server.listener).rest } }
          closedSockets := w.closedSockets ++ [conn]
          trace := w.trace ++ (Accept w.server.listener).trace
            ++ [.newCodecByName w.server.protoName conn, .connClose conn] },
        .returned) := by
  unfold ServeLoop
  simp [hacc, hcodec, World.emit]

theorem ServeLoop_codec_failure_witness :
    ServeLoop sampleCodecs (2 + 1) (sampleWorld [.conn ⟨7, true⟩, .conn ⟨8, true⟩] "bogus" true) =
      ({ sampleWorld [.conn ⟨7, true⟩, .conn ⟨8, true⟩] "bogus" true with
          server := { (sampleWorld [.conn ⟨7, true⟩, .conn ⟨8, true⟩] "bogus" true).server with
            listener := { (sampleWorld [.conn ⟨7, true⟩, .conn ⟨8, true⟩] "bogus" true).server.listener with
              pending := (Accept (sampleWorld [.conn ⟨7, true⟩, .conn ⟨8, true⟩] "bogus" true).server.listener).rest } }
          closedSockets := (sampleWorld [.conn ⟨7, true⟩, .conn ⟨8, true⟩] "bogus" true).closedSockets ++ [⟨7, true⟩]
          trace := (sampleWorld [.conn ⟨7, true⟩, .conn ⟨8, true⟩] "bogus" true).trace
            ++ (Accept (sampleWorld [.conn ⟨7, true⟩, .conn ⟨8, true⟩] "bogus" true).server.listener).trace
            ++ [.newCodecByName (sampleWorld [.conn ⟨7, true⟩, .conn ⟨8, true⟩] "bogus" true).server.protoName ⟨7, true⟩,
                .connClose ⟨7, true⟩] },
        .returned) :=
  ServeLoop_codec_failure sampleCodecs 2 (sampleWorld [.conn ⟨7, true⟩, .conn ⟨8, true⟩] "bogus" true)
    ⟨7, true⟩ ⟨"unknown protocol", false⟩ (by decide) (by rfl)

/-- C8, the code at the failing input: Serve on a server that is not running,
whose listener fails with a fatal error, returns with the running flag still
true; the same holds when the codec factory fails for the first socket. -/
theorem Serve_returns_still_running :
    (Serve sampleCodecs (sampleWorld [.error ⟨"accept: bad file descriptor", false⟩]
        "mtproto" false)).2 = .returned
      ∧ (Serve sampleCodecs (sampleWorld [.error ⟨"accept: bad file descriptor", false⟩]
        "mtproto" false)).1.server.running = true
      ∧ (Serve sampleCodecs (sampleWorld [.conn ⟨7, true⟩] "bogus" false)).2 = .returned
      ∧ (Serve sampleCodecs (sampleWorld [.conn ⟨7, true⟩] "bogus" false)).1.server.running
          = true := by
  decide

/-- Serve never clears the running flag: after any call of Serve the flag is
true, however the call ended. -/
theorem Serve_running {σ : Type} (nc : String → NetConn → Except GoError Codec) (w : World σ) :
    (Serve nc w).1.server.running = true := by
  unfold Serve
  split
  · assumption
  · rw [ServeLoop_running]

/-! ## Stop -/

/-- C7: on a running server Stop closes the listener and then has the
registry dispose its connections (the two calls, in this order, are all that
Stop adds to the trace); afterwards the socket of every connection that was
in the registry is closed and the registry is empty. -/
theorem Stop_running {σ : Type} (w : World σ) (h : w.server.running = true) :
    (Stop w).server.listener.closed = true
      ∧ (Stop w).trace = w.trace ++ [.listenerClose, .managerDispose]
      ∧ (∀ c ∈ w.registry, c.conn ∈ (Stop w).closedSockets)
      ∧ (Stop w).registry = [] := by
  unfold Stop World.registry
  simp only [h, if_true]
  cases hm : w.server.connectionManager with
  | none => simp [World.emit]
  | some m =>
    refine ⟨rfl, by simp, ?_, rfl⟩
    intro c hc
    simp only [ConnectionManager.Dispose, List.mem_append, List.mem_map]
    exact Or.inr ⟨c, hc, rfl⟩

/-- C10: on a server that is not running Stop does nothing: the world after
the call is the world before it (listener, registry and every other field of
the server, closed sockets, trace of calls), so no call is made that could
raise a fault. -/
theorem Stop_not_running {σ : Type} (w : World σ) (h : w.server.running = false) :
    Stop w = w := by
  simp [Stop, h]

theorem Stop_running_witness :
    registeredWorld.server.running = true
      ∧ registeredWorld.registry = [sampleConn]
      ∧ (Stop registeredWorld).server.listener.closed = true
      ∧ (Stop registeredWorld).trace
          = registeredWorld.trace ++ [.listenerClose, .managerDispose]
      ∧ (∀ c ∈ registeredWorld.registry, c.conn ∈ (Stop registeredWorld).closedSockets)
      ∧ (Stop registeredWorld).registry = [] :=
  ⟨rfl, rfl, Stop_running registeredWorld rfl⟩

theorem Stop_not_running_witness :
    idleWorld.server.running = false
      ∧ idleWorld.registry = [sampleConn]
      ∧ Stop idleWorld = idleWorld :=
  ⟨rfl, rfl, Stop_not_running idleWorld rfl⟩

/-! ## The receive loop -/

theorem callbackEvents_append (a b : List Action) :
    callbackEvents (a ++ b) = callbackEvents a ++ callbackEvents b := by
  simp [callbackEvents]

theorem receiveLoop_server {σ : Type} (conn : TcpConnection) (received : List ReceiveResult)
    (w : World σ) : (receiveLoop conn received w).1.server = w.server := by
  induction received generalizing w with
  | nil => rfl
  | cons r rest ih =>
    rcases r with ⟨_ | m, _ | e⟩ | v <;> simp only [receiveLoop] <;> try rfl
    split
    · split
      · rw [ih]; rfl
      · rfl
    · rw [ih]; rfl

theorem receiveLoop_events {σ : Type} (conn : TcpConnection) (received : List ReceiveResult)
    (w : World σ) (cb : TcpConnectionCallback σ) (hcb : w.server.callback = some cb) :
    ∃ msgs t, msgs ++ t = messagesBeforeEnd received
      ∧ callbackEvents (receiveLoop conn received w).1.trace
          = callbackEvents w.trace ++ msgs.map (.OnDataArrived conn) := by
  induction received generalizing w with
  | nil => exact ⟨[], [], rfl, by simp [receiveLoop, World.emit, callbackEvents, Action.isCallback]⟩
  | cons r rest ih =>
    have hcb1 : (w.emit (.receive conn)).server.callback = some cb := hcb
    rcases r with ⟨_ | m, _ | e⟩ | v
    · exact ⟨[], [], rfl, by simp [receiveLoop, World.emit, callbackEvents, Action.isCallback]⟩
    · exact ⟨[], [], rfl, by simp [receiveLoop, World.emit, callbackEvents, Action.isCallback]⟩
    · simp only [receiveLoop, hcb1]
      split
      · obtain ⟨msgs, t, h1, h2⟩ := ih
          { w.emit (.receive conn) with
            cbState := (cb.OnDataArrived (w.emit (.receive conn)).cbState conn m).1
            trace := (w.emit (.receive conn)).trace ++ [.OnDataArrived conn m] } hcb
        refine ⟨m :: msgs, t, by simp [messagesBeforeEnd, h1], ?_⟩
        rw [h2]
        simp [World.emit, callbackEvents, Action.isCallback]
      · exact ⟨[m], messagesBeforeEnd rest, rfl,
          by simp [World.emit, callbackEvents, Action.isCallback]⟩
    · exact ⟨[], [], rfl, by simp [receiveLoop, World.emit, callbackEvents, Action.isCallback]⟩
    · exact ⟨[], [], rfl, by simp [receiveLoop, World.emit, callbackEvents, Action.isCallback]⟩

theorem receiveLoop_events_ok {σ : Type} (conn : TcpConnection) (received : List ReceiveResult)
    (w : World σ) (cb : TcpConnectionCallback σ) (hcb : w.server.callback = some cb)
    (hok : ∀ st c m, ∃ r, (cb.OnDataArrived st c m).2 = .returns r) :
    callbackEvents (receiveLoop conn received w).1.trace
      = callbackEvents w.trace ++ (messagesBeforeEnd received).map (.OnDataArrived conn) := by
  induction received generalizing w with
  | nil => simp [receiveLoop, World.emit, callbackEvents, Action.isCallback, messagesBeforeEnd]
  | cons r rest ih =>
    have hcb1 : (w.emit (.receive conn)).server.callback = some cb := hcb
    rcases r with ⟨_ | m, _ | e⟩ | v
    · simp [receiveLoop, World.emit, callbackEvents, Action.isCallback, messagesBeforeEnd]
    · simp [receiveLoop, World.emit, callbackEvents, Action.isCallback, messagesBeforeEnd]
    · obtain ⟨r, hr⟩ := hok (w.emit (.receive conn)).cbState conn m
      simp only [receiveLoop, hcb1, hr]
      have h2 := ih { w.emit (.receive conn) with
            cbState := (cb.OnDataArrived (w.emit (.receive conn)).cbState conn m).1
            trace := (w.emit (.receive conn)).trace ++ [.OnDataArrived conn m] } hcb
      rw [h2]
      simp [World.emit, callbackEvents, Action.isCallback, messagesBeforeEnd]
    · simp [receiveLoop, World.emit, callbackEvents, Action.isCallback, messagesBeforeEnd]
    · simp [receiveLoop, World.emit, callbackEvents, Action.isCallback, messagesBeforeEnd]

theorem receiveLoop_completion {σ : Type} (conn : TcpConnection)
    (received : List ReceiveResult) (w : World σ) :
    (receiveLoop conn received w).2 ≠ .outOfFuel
      ∧ ((receiveLoop conn received w).2 = .blocked → allValid received = true) := by
  induction received generalizing w with
  | nil => simp [receiveLoop, allValid]
  | cons r rest ih =>
    rcases r with ⟨_ | m, _ | e⟩ | v <;> simp only [receiveLoop, allValid] <;> try simp
    split
    · split
      · exact ih _
      · simp
    · exact ih _

/-! ## establishTcpConnection -/

theorem onNewConnection_callback {σ : Type} (w : World σ) (conn : TcpConnection) :
    (onNewConnection w conn).1.server.callback = w.server.callback := by
  unfold onNewConnection
  cases hm : w.server.connectionManager <;> cases hc : w.server.callback <;>
    simp only [hm, hc] <;> try rfl
  all_goals (split <;> simp [hc])

theorem onNewConnection_manager {σ : Type} (w : World σ) (conn : TcpConnection) :
    (onNewConnection w conn).1.server.connectionManager
      = w.server.connectionManager.map (fun m => m.putConnection conn) := by
  unfold onNewConnection
  cases hm : w.server.connectionManager <;> cases hc : w.server.callback <;>
    simp only [hm, hc] <;> try simp [hm]
  all_goals (split <;> simp [hm])

theorem onNewConnection_events {σ : Type} (w : World σ) (conn : TcpConnection)
    (cb : TcpConnectionCallback σ) (hcb : w.server.callback = some cb) :
    callbackEvents (onNewConnection w conn).1.trace
      = callbackEvents w.trace ++ [.OnNewConnection conn] := by
  unfold onNewConnection
  cases hm : w.server.connectionManager <;> simp only [hm, hcb] <;>
    split <;> simp [callbackEvents, Action.isCallback]

theorem onNewConnection_completion {σ : Type} (w : World σ) (conn : TcpConnection) :
    (onNewConnection w conn).2 = .returned ∨ ∃ v, (onNewConnection w conn).2 = .panicked v := by
  unfold onNewConnection
  cases hm : w.server.connectionManager <;> cases hc : w.server.callback <;>
    simp only [hm, hc] <;> try simp
  all_goals (split <;> simp)

theorem establishTcpConnectionBody_server {σ : Type} (w : World σ) (conn : TcpConnection)
    (received : List ReceiveResult) :
    (establishTcpConnectionBody w conn received).1.server = (onNewConnection w conn).1.server := by
  unfold establishTcpConnectionBody
  rcases h : onNewConnection w conn with ⟨w1, c1⟩
  cases c1 <;> simp [receiveLoop_server]

theorem establishTcpConnection_server {σ : Type} (w : World σ) (conn : TcpConnection)
    (received : List ReceiveResult) :
    (establishTcpConnection w conn received).1.server = (onNewConnection w conn).1.server := by
  unfold establishTcpConnection
  rw [← establishTcpConnectionBody_server w conn received]
  rcases h : establishTcpConnectionBody w conn received with ⟨w1, c1⟩
  cases c1 <;> simp [World.emit]

theorem establishTcpConnectionBody_events {σ : Type} (w : World σ) (conn : TcpConnection)
    (received : List ReceiveResult) (cb : TcpConnectionCallback σ)
    (hcb : w.server.callback = some cb) :
    ∃ msgs t, msgs ++ t = messagesBeforeEnd received
      ∧ callbackEvents (establishTcpConnectionBody w conn received).1.trace
          = callbackEvents w.trace ++ .OnNewConnection conn :: msgs.map (.OnDataArrived conn) := by
  have hev := onNewConnection_events w conn cb hcb
  have hc1 := onNewConnection_callback w conn
  unfold establishTcpConnectionBody
  rcases h : onNewConnection w conn with ⟨w1, c1⟩
  rw [h] at hev hc1
  simp only at hev hc1
  cases c1 with
  | returned =>
    obtain ⟨msgs, t, h1, h2⟩ := receiveLoop_events conn received w1 cb (by rw [hc1, hcb])
    exact ⟨msgs, t, h1, by simp [h2, hev]⟩
  | blocked => exact ⟨[], messagesBeforeEnd received, rfl, by simp [hev]⟩
  | panicked v => exact ⟨[], messagesBeforeEnd received, rfl, by simp [hev]⟩
  | outOfFuel => exact ⟨[], messagesBeforeEnd received, rfl, by simp [hev]⟩

theorem establishTcpConnection_trace_events {σ : Type} (w : World σ) (conn : TcpConnection)
    (received : List ReceiveResult) :
    callbackEvents (establishTcpConnection w conn received).1.trace
      = callbackEvents (establishTcpConnectionBody w conn received).1.trace := by
  unfold establishTcpConnection
  rcases h : establishTcpConnectionBody w conn received with ⟨w1, c1⟩
  cases c1 <;> simp [World.emit, callbackEvents, Action.isCallback]

theorem establishTcpConnectionBody_completion {σ : Type} (w : World σ) (conn : TcpConnection)
    (received : List ReceiveResult) :
    (establishTcpConnectionBody w conn received).2 ≠ .outOfFuel
      ∧ ((establishTcpConnectionBody w conn received).2 = .blocked → allValid received = true) := by
  have hc := onNewConnection_completion w conn
  unfold establishTcpConnectionBody
  rcases h : onNewConnection w conn with ⟨w1, c1⟩
  rw [h] at hc
  cases c1 with
  | returned => exact receiveLoop_completion conn received w1
  | blocked => simp at hc
  | panicked v => simp
  | outOfFuel => simp at hc

theorem onConnectionClosed_events {σ : Type} (w : World σ) (conn : TcpConnection)
    (cb : TcpConnectionCallback σ) (hcb : w.server.callback = some cb) :
    callbackEvents (onConnectionClosed w conn).1.trace
      = callbackEvents w.trace ++ [.OnConnectionClosed conn] := by
  unfold onConnectionClosed
  cases hm : w.server.connectionManager <;> simp only [hm, hcb] <;>
    split <;> simp [callbackEvents, Action.isCallback]

theorem onConnectionClosed_manager {σ : Type} (w : World σ) (conn : TcpConnection) :
    (onConnectionClosed w conn).1.server.connectionManager
      = w.server.connectionManager.map (fun m => m.delConnection conn) := by
  unfold onConnectionClosed
  cases hm : w.server.connectionManager <;> cases hc : w.server.callback <;>
    simp only [hm, hc] <;> try simp [hm]
  all_goals (split <;> simp [hm])

/-- C1, counterexample: a connection whose Receive yields one message and then
a nil message.  establishTcpConnection returns, and the callback events it
emitted are OnNewConnection and one OnDataArrived: no OnConnectionClosed has
been emitted when the receive loop has exited. -/
theorem establishTcpConnection_nil_msg_events :
    (establishTcpConnection (sampleWorld [] "mtproto" true) sampleConn
        [.returns (some 3) none, .returns none none]).2 = .returned
      ∧ callbackEvents (establishTcpConnection (sampleWorld [] "mtproto" true) sampleConn
          [.returns (some 3) none, .returns none none]).1.trace
        = [.OnNewConnection sampleConn, .OnDataArrived sampleConn 3]
      ∧ isLifecycle sampleConn (callbackEvents (establishTcpConnection
          (sampleWorld [] "mtproto" true) sampleConn
          [.returns (some 3) none, .returns none none]).1.trace) = false := by
  decide

/-- C1, amended: with a callback that is not nil, the callback events emitted
by establishTcpConnection for a connection are exactly one OnNewConnection
followed by one OnDataArrived for each message of an initial part of the
messages received before the first error, nil message or fault of Receive,
and nothing else: the receive loop emits no OnConnectionClosed when it
exits.  OnConnectionClosed is emitted, exactly once per call, by the method
OnConnectionClosed of the server. -/
theorem establishTcpConnection_events {σ : Type} (w : World σ) (conn : TcpConnection)
    (received : List ReceiveResult) (cb : TcpConnectionCallback σ)
    (hcb : w.server.callback = some cb) :
    (∃ msgs t, msgs ++ t = messagesBeforeEnd received
      ∧ callbackEvents (establishTcpConnection w conn received).1.trace
          = callbackEvents w.trace ++ .OnNewConnection conn :: msgs.map (.OnDataArrived conn))
      ∧ callbackEvents (OnConnectionClosed w conn).1.trace
          = callbackEvents w.trace ++ [.OnConnectionClosed conn] := by
  refine ⟨?_, onConnectionClosed_events w conn cb hcb⟩
  rw [establishTcpConnection_trace_events]
  exact establishTcpConnectionBody_events w conn received cb hcb

theorem establishTcpConnection_events_witness :
    (∃ msgs t, msgs ++ t = messagesBeforeEnd [.returns (some 3) none, .returns none none]
      ∧ callbackEvents (establishTcpConnection (sampleWorld [] "mtproto" true) sampleConn
            [.returns (some 3) none, .returns none none]).1.trace
          = callbackEvents (sampleWorld [] "mtproto" true).trace
              ++ .OnNewConnection sampleConn :: msgs.map (.OnDataArrived sampleConn))
      ∧ callbackEvents (OnConnectionClosed (sampleWorld [] "mtproto" true) sampleConn).1.trace
          = callbackEvents (sampleWorld [] "mtproto" true).trace
              ++ [.OnConnectionClosed sampleConn] :=
  establishTcpConnection_events (sampleWorld [] "mtproto" true) sampleConn
    [.returns (some 3) none, .returns none none] countingCallback rfl

/-- C4, counterexample: on the exit by a nil message and on the exit by a
fault raised in OnDataArrived and caught at the loop boundary,
establishTcpConnection returns with the connection still in the registry. -/
theorem establishTcpConnection_exit_still_registered :
    (establishTcpConnection (sampleWorld [] "mtproto" true) sampleConn
        [.returns none none]).2 = .returned
      ∧ sampleConn ∈ (establishTcpConnection (sampleWorld [] "mtproto" true) sampleConn
          [.returns none none]).1.registry
      ∧ (establishTcpConnection (sampleWorld [] "mtproto" true) sampleConn
          [.panics "runtime error"]).2 = .returned
      ∧ sampleConn ∈ (establishTcpConnection (sampleWorld [] "mtproto" true) sampleConn
          [.panics "runtime error"]).1.registry := by
  decide

/-- C4, amended: on a server with a registry, whatever Receive and the
callback do, the registry after establishTcpConnection is the registry as
the putConnection of onNewConnection left it, so it still contains the
connection on every exit path of the receive loop.  The connection is removed
by the method OnConnectionClosed of the server: after that call the registry
does not contain it. -/
theorem establishTcpConnection_registry {σ : Type} (w : World σ) (conn : TcpConnection)
    (received : List ReceiveResult) (m : ConnectionManager)
    (hm : w.server.connectionManager = some m) :
    (establishTcpConnection w conn received).1.server.connectionManager
        = some (m.putConnection conn)
      ∧ conn ∈ (establishTcpConnection w conn received).1.registry
      ∧ conn ∉ (OnConnectionClosed (establishTcpConnection w conn received).1 conn).1.registry := by
  have h1 : (establishTcpConnection w conn received).1.server.connectionManager
      = some (m.putConnection conn) := by
    rw [establishTcpConnection_server, onNewConnection_manager, hm]; rfl
  refine ⟨h1, ?_, ?_⟩
  · simp [World.registry, h1, ConnectionManager.putConnection]
  · simp [World.registry, OnConnectionClosed, onConnectionClosed_manager, h1,
      ConnectionManager.delConnection]

theorem establishTcpConnection_registry_witness :
    (establishTcpConnection (sampleWorld [] "mtproto" true) sampleConn
        [.returns none (some io_EOF)]).1.server.connectionManager
        = some (NewConnectionManager.putConnection sampleConn)
      ∧ sampleConn ∈ (establishTcpConnection (sampleWorld [] "mtproto" true) sampleConn
          [.returns none (some io_EOF)]).1.registry
      ∧ sampleConn ∉ (OnConnectionClosed (establishTcpConnection (sampleWorld [] "mtproto" true)
          sampleConn [.returns none (some io_EOF)]).1 sampleConn).1.registry :=
  establishTcpConnection_registry (sampleWorld [] "mtproto" true) sampleConn
    [.returns none (some io_EOF)] NewConnectionManager rfl

/-- C5: establishTcpConnection never leaves by a fault.  Whatever Receive and
the callback do, the call either returns normally or is still waiting in
Receive, and it waits only when every result Receive has produced is a valid
message.  Whenever the body below the defer statement ends in a fault (raised
by OnNewConnection, by Receive or by OnDataArrived), the call logs it and
returns normally. -/
theorem establishTcpConnection_recovers {σ : Type} (w : World σ) (conn : TcpConnection)
    (received : List ReceiveResult) :
    (∀ v, (establishTcpConnection w conn received).2 ≠ .panicked v)
      ∧ ((establishTcpConnection w conn received).2 = .returned
          ∨ (establishTcpConnection w conn received).2 = .blocked)
      ∧ ((establishTcpConnection w conn received).2 = .blocked → allValid received = true)
      ∧ (∀ v, (establishTcpConnectionBody w conn received).2 = .panicked v →
          establishTcpConnection w conn received
            = ((establishTcpConnectionBody w conn received).1.emit
                (.glogError ("tcp_server handle panic: " ++ v)), .returned)) := by
  have hb := establishTcpConnectionBody_completion w conn received
  unfold establishTcpConnection
  rcases h : establishTcpConnectionBody w conn received with ⟨w1, c1⟩
  rw [h] at hb
  cases c1 with
  | returned => simp
  | blocked => simpa using hb.2
  | panicked v => simp
  | outOfFuel => simp at hb

/-- C9: with a callback that is not nil and whose OnDataArrived always returns
(success or failure), the receive loop calls OnDataArrived exactly once for
each message that precedes the first read or decode error or nil message, in
arrival order, and makes no other callback call; the calls made are the same
under any other such callback cb2, started in any state st2. -/
theorem receiveLoop_delivers {σ : Type} (conn : TcpConnection) (received : List ReceiveResult)
    (w : World σ) (cb cb2 : TcpConnectionCallback σ) (st2 : σ)
    (hcb : w.server.callback = some cb)
    (hok : ∀ st c m, ∃ r, (cb.OnDataArrived st c m).2 = .returns r)
    (hok2 : ∀ st c m, ∃ r, (cb2.OnDataArrived st c m).2 = .returns r) :
    callbackEvents (receiveLoop conn received w).1.trace
        = callbackEvents w.trace ++ (messagesBeforeEnd received).map (.OnDataArrived conn)
      ∧ callbackEvents (receiveLoop conn received
            { w with server := { w.server with callback := some cb2 }, cbState := st2 }).1.trace
          = callbackEvents (receiveLoop conn received w).1.trace := by
  refine ⟨receiveLoop_events_ok conn received w cb hcb hok, ?_⟩
  rw [receiveLoop_events_ok conn received w cb hcb hok,
    receiveLoop_events_ok conn received _ cb2 rfl hok2]

theorem receiveLoop_delivers_witness :
    callbackEvents (receiveLoop sampleConn
          [.returns (some 3) none, .returns (some 4) none, .returns none (some io_EOF),
           .returns (some 5) none]
          (sampleWorld [] "mtproto" true)).1.trace
        = callbackEvents (sampleWorld [] "mtproto" true).trace
            ++ (messagesBeforeEnd [.returns (some 3) none, .returns (some 4) none,
                  .returns none (some io_EOF), .returns (some 5) none]).map
                (.OnDataArrived sampleConn)
      ∧ callbackEvents (receiveLoop sampleConn
            [.returns (some 3) none, .returns (some 4) none, .returns none (some io_EOF),
             .returns (some 5) none]
            { sampleWorld [] "mtproto" true with
              server := { (sampleWorld [] "mtproto" true).server with
                callback := some failingCallback }
              cbState := 9 }).1.trace
          = callbackEvents (receiveLoop sampleConn
              [.returns (some 3) none, .returns (some 4) none, .returns none (some io_EOF),
               .returns (some 5) none]
              (sampleWorld [] "mtproto" true)).1.trace :=
  receiveLoop_delivers sampleConn
    [.returns (some 3) none, .returns (some 4) none, .returns none (some io_EOF),
     .returns (some 5) none]
    (sampleWorld [] "mtproto" true) countingCallback failingCallback 9 rfl
    (fun _ _ _ => ⟨none, rfl⟩) (fun _ _ _ => ⟨some ⟨"rejected", false⟩, rfl⟩)

end Net2
